import Mathlib

/-!
Verification of the market-data state engine of the KalshiSignalDashboard
repository (Go). Shallow embedding: each Go function of interest is
translated into an executable Lean definition and the specification's
claims are settled as theorems about those definitions.

Modelling conventions, used throughout:
* machine integers (`int`, `int64`) are `Int` (no claim exercises overflow);
* `float64` is `ℚ` with exact arithmetic (IEEE-754 rounding is not modelled;
  no claim under test distinguishes the two);
* `time.Time` instants are `Int` seconds;
* Go maps keyed by ticker are functions `String → Option _` / `String → List _`;
* a Go `(value, ok)` return pair is an `Option`.
-/

/-- Mirrors `state.PriceLevel` (part_012): price in cents, quantity in
contracts. -/
structure PriceLevel where
  price : Int
  quantity : Int
deriving DecidableEq, Repr

/-- Mirrors `state.Orderbook` (part_012): bids sorted descending, asks sorted
ascending. The `LastUpdate` wall-clock stamp is not modelled (no claim under
test mentions it). -/
structure Orderbook where
  marketTicker : String
  bids : List PriceLevel
  asks : List PriceLevel
deriving DecidableEq, Repr

/-- Mirrors `state.NewOrderbook`. -/
def newOrderbook (marketTicker : String) : Orderbook :=
  { marketTicker := marketTicker, bids := [], asks := [] }

/-- Mirrors `state.KalshiOrderbookFp`: each level is `[price_str, qty_str]`. -/
structure KalshiOrderbookFp where
  yesDollars : List (List String)
  noDollars : List (List String)
deriving DecidableEq, Repr

/-- Mirrors `state.KalshiOrderbookResponse`. -/
structure KalshiOrderbookResponse where
  orderbookFp : KalshiOrderbookFp
deriving DecidableEq, Repr

/-- The numeric value of a decimal digit character, `none` otherwise. -/
def digitVal (c : Char) : Option Nat :=
  if '0' ≤ c ∧ c ≤ '9' then some (c.toNat - '0'.toNat) else none

/-- Reads a run of decimal digits into an accumulator; fails on any
non-digit. -/
def digitsToNat (acc : Nat) : List Char → Option Nat
  | [] => some acc
  | c :: cs =>
    match digitVal c with
    | some d => digitsToNat (acc * 10 + d) cs
    | none => none

/-- Splits a character list at the first dot character. -/
def splitAtDot : List Char → List Char × Option (List Char)
  | [] => ([], none)
  | c :: rest =>
    if c = '.' then ([], some rest)
    else
      let (a, b) := splitAtDot rest
      (c :: a, b)

/-- Mirrors the decimal-numeral fragment of `strconv.ParseFloat` used by
`parseDollarToCents` / `parseFixedPointCount` (part_012): optional sign,
integer digits, optional dot and fraction digits. The result is the exact
value as (negative?, integer part, fraction part, fraction length);
`ParseFloat`'s binary rounding and its exponent / hex / inf forms are not
modelled. -/
def parseDecimalParts (s : String) : Option (Bool × Nat × Nat × Nat) :=
  let cs := s.data
  let signed : Bool × List Char :=
    match cs with
    | '-' :: rest => (true, rest)
    | '+' :: rest => (false, rest)
    | _ => (false, cs)
  let neg := signed.1
  let body := signed.2
  if body.isEmpty then none
  else
    let (ipChars, fracPart) := splitAtDot body
    match fracPart with
    | none =>
      match digitsToNat 0 ipChars with
      | some ip => some (neg, ip, 0, 0)
      | none => none
    | some fChars =>
      if ipChars.isEmpty ∧ fChars.isEmpty then none
      else
        match digitsToNat 0 ipChars, digitsToNat 0 fChars with
        | some ip, some fp => some (neg, ip, fp, fChars.length)
        | _, _ => none

/-- The cents value `int(f * 100)` of a parsed decimal: truncation toward
zero of the exact value times 100. -/
def centsOfParts (p : Bool × Nat × Nat × Nat) : Int :=
  let n : Nat := (p.2.1 * 10 ^ p.2.2.2 + p.2.2.1) * 100 / 10 ^ p.2.2.2
  if p.1 then -(n : Int) else (n : Int)

/-- The integer value `int(f)` of a parsed decimal: truncation toward zero. -/
def countOfParts (p : Bool × Nat × Nat × Nat) : Int :=
  let n : Nat := (p.2.1 * 10 ^ p.2.2.2 + p.2.2.1) / 10 ^ p.2.2.2
  if p.1 then -(n : Int) else (n : Int)

/-- Mirrors `state.parseDollarToCents` (part_012): parse as a decimal
number of dollars, take `int(f * 100)`. -/
def parseDollarToCents (s : String) : Option Int :=
  (parseDecimalParts s).map centsOfParts

/-- Mirrors `state.parseFixedPointCount` (part_012): parse as a decimal
number, take `int(f)`. -/
def parseFixedPointCount (s : String) : Option Int :=
  (parseDecimalParts s).map countOfParts

/-- One iteration of the level-parsing loops in `Orderbook.UpdateFromKalshi`:
a level shorter than 2 entries is skipped, as is one whose price or quantity
does not parse. -/
def parseLevelEntry (level : List String) : Option PriceLevel :=
  match level with
  | p :: q :: _ =>
    match parseDollarToCents p, parseFixedPointCount q with
    | some pc, some qc => some { price := pc, quantity := qc }
    | _, _ => none
  | _ => none

/-- The well-formed levels of a side, in order: the YES loop of
`UpdateFromKalshi`. -/
def parseBidLevels (levels : List (List String)) : List PriceLevel :=
  levels.filterMap parseLevelEntry

/-- The binary-market derivation of `UpdateFromKalshi`: a NO bid at price p
becomes a YES ask at 10000 - p cents, quantity preserved. -/
def toAsk (l : PriceLevel) : PriceLevel :=
  { price := 10000 - l.price, quantity := l.quantity }

/-- The NO loop of `UpdateFromKalshi`: each well-formed NO level, mapped by
`toAsk`. -/
def parseAskLevels (levels : List (List String)) : List PriceLevel :=
  levels.filterMap (fun level => (parseLevelEntry level).map toAsk)

/-- The bid ordering of `UpdateFromKalshi`'s `sort.Slice`: descending by
price. -/
def bidLe (a b : PriceLevel) : Prop := b.price ≤ a.price

/-- The ask ordering of `UpdateFromKalshi`'s `sort.Slice`: ascending by
price. -/
def askLe (a b : PriceLevel) : Prop := a.price ≤ b.price

instance : DecidableRel bidLe := fun a b => inferInstanceAs (Decidable (b.price ≤ a.price))

instance : DecidableRel askLe := fun a b => inferInstanceAs (Decidable (a.price ≤ b.price))

instance : IsTotal PriceLevel bidLe := ⟨fun a b => le_total b.price a.price⟩

instance : IsTrans PriceLevel bidLe := ⟨fun _ _ _ h1 h2 => le_trans h2 h1⟩

instance : IsTotal PriceLevel askLe := ⟨fun a b => le_total a.price b.price⟩

instance : IsTrans PriceLevel askLe := ⟨fun _ _ _ h1 h2 => le_trans h1 h2⟩

/-- Mirrors `Orderbook.UpdateFromKalshi` (part_012 lines 49-98): clears both
sides, refills bids from the well-formed YES levels, synthesises asks from
the well-formed NO levels via `toAsk`, and sorts bids descending and asks
ascending. (The Go `sort.Slice` is an unspecified unstable sort; it is
modelled by insertion sort, which produces a sorted permutation of the same
list.) -/
def updateFromKalshi (ob : Orderbook) (resp : KalshiOrderbookResponse) : Orderbook :=
  { ob with
    bids := List.insertionSort bidLe (parseBidLevels resp.orderbookFp.yesDollars),
    asks := List.insertionSort askLe (parseAskLevels resp.orderbookFp.noDollars) }

/-- Mirrors `Orderbook.Spread` (part_012 lines 100-107): `none` models the
`ok = false` return. -/
def spread (ob : Orderbook) : Option Int :=
  match ob.bids, ob.asks with
  | bb :: _, ba :: _ => some (ba.price - bb.price)
  | _, _ => none

/-- Mirrors `Orderbook.BidDepth`: sum of price times quantity over bids. -/
def bidDepth (ob : Orderbook) : Int :=
  ob.bids.foldl (fun acc l => acc + l.price * l.quantity) 0

/-- Mirrors `Orderbook.AskDepth`: sum of price times quantity over asks. -/
def askDepth (ob : Orderbook) : Int :=
  ob.asks.foldl (fun acc l => acc + l.price * l.quantity) 0

/-- Mirrors `Orderbook.ImbalanceRatio` (part_012 lines 125-133). -/
def imbalanceRatio (ob : Orderbook) : ℚ :=
  let b : ℚ := (bidDepth ob : ℚ)
  let a : ℚ := (askDepth ob : ℚ)
  if b + a = 0 then 0 else (b - a) / (b + a)

/-- Mirrors `Orderbook.Microprice` (part_012 lines 137-155): volume-weighted
mid in dollar units, simple mid when the top quantities sum to zero, `none`
when either side is empty. -/
def microprice (ob : Orderbook) : Option ℚ :=
  match ob.bids, ob.asks with
  | bb :: _, ba :: _ =>
    let bestBid : ℚ := (bb.price : ℚ) / 100
    let bestAsk : ℚ := (ba.price : ℚ) / 100
    let bidQty : ℚ := (bb.quantity : ℚ)
    let askQty : ℚ := (ba.quantity : ℚ)
    if bidQty + askQty = 0 then some ((bestBid + bestAsk) / 2)
    else some ((bestBid * askQty + bestAsk * bidQty) / (bidQty + askQty))
  | _, _ => none

theorem parseAskLevels_eq_map (ls : List (List String)) :
    parseAskLevels ls = (parseBidLevels ls).map toAsk := by
  rw [parseAskLevels, parseBidLevels, List.map_filterMap]

theorem toAsk_injective : Function.Injective toAsk := by
  intro a b h
  cases a
  cases b
  simp only [toAsk, PriceLevel.mk.injEq] at h ⊢
  omega

/-- C1: after `UpdateFromKalshi` with upstream response (Y, N), the asks are
exactly the well-formed levels of N mapped by p_ask = 10000 - p_no_bid with
quantities preserved (same size, and each level's multiplicity is preserved
through the mapping), the bids are exactly the well-formed levels of Y, bids
are sorted descending and asks ascending; on yes_dollars
[["0.60","100"],["0.59","50"]] and no_dollars [["0.39","80"]] the result is
bids [(60,100),(59,50)] and asks [(9961,80)]. -/
theorem updateFromKalshi_derivation :
    ∀ (ob : Orderbook) (resp : KalshiOrderbookResponse),
      (updateFromKalshi ob resp).asks.length
          = (parseBidLevels resp.orderbookFp.noDollars).length
      ∧ (∀ p q : Int,
          (updateFromKalshi ob resp).asks.count ⟨10000 - p, q⟩
            = (parseBidLevels resp.orderbookFp.noDollars).count ⟨p, q⟩)
      ∧ (updateFromKalshi ob resp).bids.Perm (parseBidLevels resp.orderbookFp.yesDollars)
      ∧ List.Sorted bidLe (updateFromKalshi ob resp).bids
      ∧ List.Sorted askLe (updateFromKalshi ob resp).asks
      ∧ updateFromKalshi (newOrderbook "MKT")
          ⟨⟨[["0.60", "100"], ["0.59", "50"]], [["0.39", "80"]]⟩⟩
          = { marketTicker := "MKT", bids := [⟨60, 100⟩, ⟨59, 50⟩], asks := [⟨9961, 80⟩] } := by
  intro ob resp
  have hperma : (updateFromKalshi ob resp).asks.Perm
      (parseAskLevels resp.orderbookFp.noDollars) :=
    List.perm_insertionSort _ _
  refine ⟨?_, ?_, List.perm_insertionSort _ _,
    List.sorted_insertionSort _ _, List.sorted_insertionSort _ _, by decide⟩
  · rw [hperma.length_eq, parseAskLevels_eq_map, List.length_map]
  · intro p q
    have hkey : (⟨10000 - p, q⟩ : PriceLevel) = toAsk ⟨p, q⟩ := by
      simp [toAsk]
    rw [hperma.count_eq, parseAskLevels_eq_map, hkey,
      List.count_map_of_injective _ _ toAsk_injective]

/-- C2 (amended): with either side empty, Spread and Microprice are
undefined; ImbalanceRatio is 0 when both sides are empty (total depth 0),
but with exactly one side empty and the other of nonzero depth it is -1
(empty bids) or +1 (empty asks), not 0. -/
theorem emptyBook_metrics :
    ∀ ob : Orderbook,
      (ob.bids = [] ∨ ob.asks = [] → spread ob = none ∧ microprice ob = none)
      ∧ (ob.bids = [] → ob.asks = [] → imbalanceRatio ob = 0)
      ∧ (ob.bids = [] → (askDepth ob : ℚ) ≠ 0 → imbalanceRatio ob = -1)
      ∧ (ob.asks = [] → (bidDepth ob : ℚ) ≠ 0 → imbalanceRatio ob = 1) := by
  intro ob
  refine ⟨?_, ?_, ?_, ?_⟩
  · rintro (h | h) <;>
      · rw [spread, microprice, h]
        cases ob.bids <;> cases ob.asks <;> simp
  · intro hb ha
    rw [imbalanceRatio, bidDepth, askDepth, hb, ha]
    simp
  · intro hb hd
    have hzero : (bidDepth ob : ℚ) = 0 := by
      rw [bidDepth, hb]
      simp
    rw [imbalanceRatio, hzero]
    rw [if_neg (by simpa using hd)]
    rw [zero_sub, zero_add, neg_div, div_self hd]
  · intro ha hd
    have hzero : (askDepth ob : ℚ) = 0 := by
      rw [askDepth, ha]
      simp
    rw [imbalanceRatio, hzero]
    rw [if_neg (by simpa using hd)]
    rw [sub_zero, add_zero, div_self hd]

/-- C2 counterexample: a book with empty bids and one ask of positive depth
has ImbalanceRatio -1, not 0 as the claim states. -/
theorem imbalanceRatio_emptyBids_counterexample :
    (Orderbook.mk "E2" [] [⟨56, 200⟩]).bids = []
    ∧ imbalanceRatio (Orderbook.mk "E2" [] [⟨56, 200⟩]) ≠ 0 := by
  constructor
  · rfl
  · have h1 : imbalanceRatio (Orderbook.mk "E2" [] [⟨56, 200⟩]) = -1 := by
      have := (emptyBook_metrics (Orderbook.mk "E2" [] [⟨56, 200⟩])).2.2.1 rfl
        (by norm_num [askDepth])
      exact this
    rw [h1]
    norm_num

/-- C2 witness: the amended statement applied to that same one-sided book. -/
theorem emptyBook_metrics_witness :
    spread (Orderbook.mk "E1" [] [⟨56, 200⟩]) = none
    ∧ microprice (Orderbook.mk "E1" [] [⟨56, 200⟩]) = none
    ∧ imbalanceRatio (Orderbook.mk "E1" [] [⟨56, 200⟩]) = -1 := by
  obtain ⟨h1, _, h3, _⟩ := emptyBook_metrics (Orderbook.mk "E1" [] [⟨56, 200⟩])
  obtain ⟨hs, hm⟩ := h1 (Or.inl rfl)
  exact ⟨hs, hm, h3 rfl (by norm_num [askDepth])⟩

/-- C5 (amended): for a book with both sides non-empty, nonnegative
quantities, and best_bid ≤ best_ask (an uncrossed book — the claim as stated
fails on crossed books), Microprice is defined, equals the volume-weighted
formula (simple mid when the top quantities sum to 0), and lies within
[best_bid/100, best_ask/100]. -/
theorem microprice_bounds :
    ∀ (ob : Orderbook) (bb ba : PriceLevel) (bTail aTail : List PriceLevel),
      ob.bids = bb :: bTail → ob.asks = ba :: aTail →
      0 ≤ bb.quantity → 0 ≤ ba.quantity → bb.price ≤ ba.price →
      ∃ m : ℚ, microprice ob = some m
        ∧ ((bb.quantity : ℚ) + (ba.quantity : ℚ) = 0 →
            m = ((bb.price : ℚ) / 100 + (ba.price : ℚ) / 100) / 2)
        ∧ ((bb.quantity : ℚ) + (ba.quantity : ℚ) ≠ 0 →
            m = ((bb.price : ℚ) / 100 * (ba.quantity : ℚ)
                  + (ba.price : ℚ) / 100 * (bb.quantity : ℚ))
                / ((bb.quantity : ℚ) + (ba.quantity : ℚ)))
        ∧ (bb.price : ℚ) / 100 ≤ m ∧ m ≤ (ba.price : ℚ) / 100 := by
  intro ob bb ba bTail aTail hb ha hqb hqa hcross
  have hqb' : (0 : ℚ) ≤ (bb.quantity : ℚ) := by exact_mod_cast hqb
  have hqa' : (0 : ℚ) ≤ (ba.quantity : ℚ) := by exact_mod_cast hqa
  have hpp : (bb.price : ℚ) / 100 ≤ (ba.price : ℚ) / 100 := by
    have : (bb.price : ℚ) ≤ (ba.price : ℚ) := by exact_mod_cast hcross
    linarith
  rw [microprice, hb, ha]
  dsimp only
  by_cases htot : (bb.quantity : ℚ) + (ba.quantity : ℚ) = 0
  · refine ⟨_, by rw [if_pos htot], fun _ => rfl, fun h => absurd htot h, ?_, ?_⟩ <;> linarith
  · have hpos : (0 : ℚ) < (bb.quantity : ℚ) + (ba.quantity : ℚ) :=
      lt_of_le_of_ne (by linarith) (Ne.symm htot)
    refine ⟨_, by rw [if_neg htot], fun h => absurd h htot, fun _ => rfl, ?_, ?_⟩
    · rw [le_div_iff₀ hpos]
      nlinarith [mul_le_mul_of_nonneg_right hpp hqb']
    · rw [div_le_iff₀ hpos]
      nlinarith [mul_le_mul_of_nonneg_right hpp hqa']

/-- C5 counterexample: on the crossed book bids = [(60,1)], asks = [(50,1)]
(both sides non-empty, quantities nonnegative) the microprice is 0.55, which
is not ≤ best_ask/100 = 0.50, so the claim as stated fails. -/
theorem microprice_crossed_book_counterexample :
    microprice (Orderbook.mk "X5" [⟨60, 1⟩] [⟨50, 1⟩]) = some (11 / 20)
    ∧ ¬ ((11 / 20 : ℚ) ≤ (50 : ℚ) / 100) := by
  constructor
  · rw [microprice]
    norm_num
  · norm_num

/-- C5 witness: the amended statement applied to the book
bids = [(55,800)], asks = [(56,200)]. -/
theorem microprice_bounds_witness :
    ∃ m : ℚ, microprice (Orderbook.mk "W5" [⟨55, 800⟩] [⟨56, 200⟩]) = some m
      ∧ (55 : ℚ) / 100 ≤ m ∧ m ≤ (56 : ℚ) / 100 := by
  obtain ⟨m, h1, _, _, h4, h5⟩ :=
    microprice_bounds (Orderbook.mk "W5" [⟨55, 800⟩] [⟨56, 200⟩])
      ⟨55, 800⟩ ⟨56, 200⟩ [] [] rfl rfl (by decide) (by decide) (by decide)
  exact ⟨m, h1, by simpa using h4, by simpa using h5⟩

/-- Mirrors `state.TradeSide`. -/
inductive TradeSide where
  | yes
  | no
deriving DecidableEq, Repr

/-- Mirrors `state.Trade` (trade.go): timestamp in integer seconds. -/
structure Trade where
  marketTicker : String
  side : TradeSide
  price : Int
  quantity : Int
  timestamp : Int
deriving DecidableEq, Repr

/-- The append-then-truncate step shared by `TradeLog.Add` (trade.go lines
36-46) and the ring caps of `TimeSeriesStore` (timeseries.go): append, then
keep only the most recent `maxLen` entries. -/
def appendCapped (maxLen : Nat) (l : List α) (x : α) : List α :=
  let l2 := l ++ [x]
  if maxLen < l2.length then l2.drop (l2.length - maxLen) else l2

/-- The most recent `n` entries of a list (the whole list when shorter). -/
def lastN (n : Nat) (l : List α) : List α :=
  l.drop (l.length - n)

/-- Mirrors `TradeLog.Add` with the `maxLen = 1000` set by `NewTradeLog`. -/
def tradeLogAdd (log : List Trade) (t : Trade) : List Trade :=
  appendCapped 1000 log t

/-- Mirrors `state.MarketStatus` (part_011). -/
inductive MarketStatus where
  | initialized
  | inactive
  | active
  | closed
  | determined
  | disputed
  | amended
  | finalized
deriving DecidableEq, Repr

/-- Mirrors `state.Market` (part_011): expiration as optional integer
seconds. -/
structure Market where
  ticker : String
  title : String
  category : String
  status : MarketStatus
  expirationTime : Option Int
  eventTicker : String
  yesSubTitle : String
  noSubTitle : String
deriving DecidableEq, Repr

/-- Mirrors `state.MarketSnapshot` (timeseries.go lines 16-29). -/
structure MarketSnapshot where
  timestamp : Int
  marketTicker : String
  bestBid : Int
  bestAsk : Int
  midPrice : ℚ
  spreadCents : Int
  bidDepth : Int
  askDepth : Int
  imbalance : ℚ
  microprice : ℚ
  tradeCount : Nat
  lastTrade : Option Trade

/-- The value half of `Orderbook.Microprice()`'s Go return pair (0 when the
`ok` flag is false), as used by `RecordSnapshot` which discards the flag. -/
def micropriceValue (ob : Orderbook) : ℚ :=
  (microprice ob).getD 0

/-- The snapshot `RecordSnapshot` (timeseries.go lines 69-112) builds from a
book with both sides non-empty; `none` models its early return when either
side is empty. -/
def snapshotOf (now : Int) (ticker : String) (ob : Orderbook) (trades : List Trade) :
    Option MarketSnapshot :=
  match ob.bids, ob.asks with
  | bb :: _, ba :: _ =>
    some { timestamp := now
           marketTicker := ticker
           bestBid := bb.price
           bestAsk := ba.price
           midPrice := ((bb.price : ℚ) + (ba.price : ℚ)) / 200
           spreadCents := ba.price - bb.price
           bidDepth := bidDepth ob
           askDepth := askDepth ob
           imbalance := imbalanceRatio ob
           microprice := micropriceValue ob * 100
           tradeCount := trades.length
           lastTrade := trades.getLast? }
  | _, _ => none

/-- Mirrors `TimeSeriesStore.RecordSnapshot` on one market's ring: no-op on
a one-sided book, otherwise append capped at `maxSnapshotsPerMarket` =
10000. -/
def recordSnapshot (snaps : List MarketSnapshot) (now : Int) (ticker : String)
    (ob : Orderbook) (trades : List Trade) : List MarketSnapshot :=
  match snapshotOf now ticker ob trades with
  | none => snaps
  | some snap => appendCapped 10000 snaps snap

/-- The state-engine store (engine.go): the four keyed tables. Maps are
total functions with `none` / `[]` for absent keys; the engine's lock is not
modelled (claims under test are per-operation). -/
structure EngineState where
  markets : String → Option Market
  orderbooks : String → Option Orderbook
  tradeLogs : String → List Trade
  snapshots : String → List MarketSnapshot

/-- Mirrors `state.NewEngine`: all tables empty. -/
def initialEngine : EngineState :=
  { markets := fun _ => none
    orderbooks := fun _ => none
    tradeLogs := fun _ => []
    snapshots := fun _ => [] }

/-- Mirrors `Engine.RegisterMarket` (engine.go lines 25-33): overwrite the
market record; create an empty book only when none exists for the ticker. -/
def registerMarket (m : Market) (s : EngineState) : EngineState :=
  { s with
    markets := fun t => if t = m.ticker then some m else s.markets t
    orderbooks :=
      match s.orderbooks m.ticker with
      | some _ => s.orderbooks
      | none => fun t => if t = m.ticker then some (newOrderbook m.ticker) else s.orderbooks t }

/-- Mirrors `Engine.GetRecentTrades` + `TradeLog.GetSince`: trades with
timestamp ≥ now − window. -/
def getRecentTrades (s : EngineState) (now : Int) (ticker : String) (window : Int) :
    List Trade :=
  (s.tradeLogs ticker).filter (fun t => decide (now - window ≤ t.timestamp))

/-- Mirrors `Engine.UpdateOrderbook` (engine.go lines 35-43): replace the
book, then record a snapshot from the updated book and the trades of the
last five minutes (300 s). -/
def updateOrderbook (now : Int) (ticker : String) (ob : Orderbook) (s : EngineState) :
    EngineState :=
  let s1 : EngineState :=
    { s with orderbooks := fun t => if t = ticker then some ob else s.orderbooks t }
  let trades := getRecentTrades s1 now ticker 300
  { s1 with
    snapshots := fun t =>
      if t = ticker then recordSnapshot (s1.snapshots ticker) now ticker ob trades
      else s1.snapshots t }


theorem engineStateExt {a b : EngineState}
    (h1 : a.markets = b.markets) (h2 : a.orderbooks = b.orderbooks)
    (h3 : a.tradeLogs = b.tradeLogs) (h4 : a.snapshots = b.snapshots) : a = b := by
  cases a
  cases b
  congr 1

theorem registerMarket_markets (m : Market) (s : EngineState) :
    (registerMarket m s).markets = fun t => if t = m.ticker then some m else s.markets t := rfl

theorem registerMarket_tradeLogs (m : Market) (s : EngineState) :
    (registerMarket m s).tradeLogs = s.tradeLogs := rfl

theorem registerMarket_snapshots (m : Market) (s : EngineState) :
    (registerMarket m s).snapshots = s.snapshots := rfl

theorem registerMarket_orderbooks_of_some (m : Market) (s : EngineState) (b : Orderbook)
    (h : s.orderbooks m.ticker = some b) :
    (registerMarket m s).orderbooks = s.orderbooks := by
  simp only [registerMarket, h]

theorem registerMarket_orderbooks_of_none (m : Market) (s : EngineState)
    (h : s.orderbooks m.ticker = none) :
    (registerMarket m s).orderbooks
      = fun t => if t = m.ticker then some (newOrderbook m.ticker) else s.orderbooks t := by
  simp only [registerMarket, h]

/-- C6: RegisterMarket is idempotent and never resets an existing book:
registering the same market twice equals registering it once, any
pre-existing order book entry is left unchanged, and the market record is
keyed (and overwritten) by its ticker. -/
theorem registerMarket_idempotent :
    ∀ (m : Market) (s : EngineState),
      registerMarket m (registerMarket m s) = registerMarket m s
      ∧ (∀ (t : String) (ob : Orderbook),
          s.orderbooks t = some ob → (registerMarket m s).orderbooks t = some ob)
      ∧ (registerMarket m s).markets m.ticker = some m := by
  intro m s
  refine ⟨?_, ?_, by rw [registerMarket_markets]; simp⟩
  · cases h : s.orderbooks m.ticker with
    | some b =>
      have hob1 : (registerMarket m s).orderbooks = s.orderbooks :=
        registerMarket_orderbooks_of_some m s b h
      have hob2 : (registerMarket m s).orderbooks m.ticker = some b := by
        rw [hob1]
        exact h
      apply engineStateExt
      · funext t
        simp only [registerMarket_markets]
        by_cases ht : t = m.ticker <;> simp [ht]
      · rw [registerMarket_orderbooks_of_some m (registerMarket m s) b hob2, hob1]
      · rfl
      · rfl
    | none =>
      have hob1 := registerMarket_orderbooks_of_none m s h
      have hob2 : (registerMarket m s).orderbooks m.ticker = some (newOrderbook m.ticker) := by
        rw [hob1]
        simp
      apply engineStateExt
      · funext t
        simp only [registerMarket_markets]
        by_cases ht : t = m.ticker <;> simp [ht]
      · rw [registerMarket_orderbooks_of_some m (registerMarket m s) _ hob2]
      · rfl
      · rfl
  · intro t ob hob
    cases h : s.orderbooks m.ticker with
    | some b =>
      rw [registerMarket_orderbooks_of_some m s b h]
      exact hob
    | none =>
      rw [registerMarket_orderbooks_of_none m s h]
      by_cases ht : t = m.ticker
      · rw [ht] at hob
        rw [h] at hob
        cases hob
      · simp [ht, hob]

/-- C6 witness: re-registering a market whose ticker already has a book
leaves that book in place. -/
theorem registerMarket_idempotent_witness :
    (registerMarket
        (Market.mk "M6" "t" "c" MarketStatus.active none "E6" "" "")
        { initialEngine with
          orderbooks := fun t =>
            if t = "M6" then some (Orderbook.mk "M6" [⟨40, 1⟩] [⟨45, 2⟩]) else none }).orderbooks
      "M6" = some (Orderbook.mk "M6" [⟨40, 1⟩] [⟨45, 2⟩]) := by
  exact (registerMarket_idempotent
      (Market.mk "M6" "t" "c" MarketStatus.active none "E6" "" "")
      { initialEngine with
        orderbooks := fun t =>
          if t = "M6" then some (Orderbook.mk "M6" [⟨40, 1⟩] [⟨45, 2⟩]) else none }).2.1
    "M6" (Orderbook.mk "M6" [⟨40, 1⟩] [⟨45, 2⟩]) (by simp)

theorem updateOrderbook_orderbooks_self (now : Int) (ticker : String) (ob : Orderbook)
    (s : EngineState) :
    (updateOrderbook now ticker ob s).orderbooks ticker = some ob := by
  show (if ticker = ticker then some ob else s.orderbooks ticker) = some ob
  simp

theorem updateOrderbook_snapshots_self (now : Int) (ticker : String) (ob : Orderbook)
    (s : EngineState) :
    (updateOrderbook now ticker ob s).snapshots ticker
      = recordSnapshot (s.snapshots ticker) now ticker ob
          (getRecentTrades s now ticker 300) := by
  show (if ticker = ticker then
      recordSnapshot (s.snapshots ticker) now ticker ob (getRecentTrades s now ticker 300)
    else s.snapshots ticker) = _
  simp

/-- C4 (amended): UpdateOrderBook replaces the book for the ticker; it
appends a snapshot (built from the updated book and the trades of the last
five minutes, capped at the 10000-entry ring) exactly when the updated book
has both sides non-empty — `RecordSnapshot` returns without recording when
either side is empty, so not every book update captures a snapshot. -/
theorem updateOrderbook_snapshot_recording :
    ∀ (s : EngineState) (now : Int) (ticker : String) (ob : Orderbook),
      (updateOrderbook now ticker ob s).orderbooks ticker = some ob
      ∧ (∀ snap : MarketSnapshot,
          snapshotOf now ticker ob (getRecentTrades s now ticker 300) = some snap →
            (updateOrderbook now ticker ob s).snapshots ticker
              = appendCapped 10000 (s.snapshots ticker) snap)
      ∧ (ob.bids = [] ∨ ob.asks = [] →
          (updateOrderbook now ticker ob s).snapshots ticker = s.snapshots ticker)
      ∧ ((ob.bids ≠ [] ∧ ob.asks ≠ []) ↔
          (snapshotOf now ticker ob (getRecentTrades s now ticker 300)).isSome) := by
  intro s now ticker ob
  refine ⟨updateOrderbook_orderbooks_self now ticker ob s, ?_, ?_, ?_⟩
  · intro snap hsnap
    rw [updateOrderbook_snapshots_self, recordSnapshot, hsnap]
  · intro hempty
    have hsnap : snapshotOf now ticker ob (getRecentTrades s now ticker 300) = none := by
      rw [snapshotOf]
      rcases hempty with h | h
      · rw [h]
      · rw [h]
        cases ob.bids <;> simp
    rw [updateOrderbook_snapshots_self, recordSnapshot, hsnap]
  · rw [snapshotOf]
    cases hb : ob.bids <;> cases ha : ob.asks <;> simp

/-- C4 counterexample: updating with a book whose sides are empty appends no
snapshot — the ring stays empty, while the claim requires an appended
snapshot on every update. -/
theorem updateOrderbook_empty_book_counterexample :
    ¬ ∃ snap : MarketSnapshot,
        (updateOrderbook 0 "C4" (newOrderbook "C4") initialEngine).snapshots "C4"
          = initialEngine.snapshots "C4" ++ [snap] := by
  rintro ⟨snap, h⟩
  have hnil : (updateOrderbook 0 "C4" (newOrderbook "C4") initialEngine).snapshots "C4"
      = initialEngine.snapshots "C4" :=
    (updateOrderbook_snapshot_recording initialEngine 0 "C4" (newOrderbook "C4")).2.2.1
      (Or.inl rfl)
  rw [hnil] at h
  simp [initialEngine] at h

/-- C4 witness: updating with a two-sided book does append the snapshot. -/
theorem updateOrderbook_snapshot_recording_witness :
    ∃ snap : MarketSnapshot,
      snapshotOf 0 "W4" (Orderbook.mk "W4" [⟨60, 5⟩] [⟨70, 7⟩])
          (getRecentTrades initialEngine 0 "W4" 300) = some snap
      ∧ (updateOrderbook 0 "W4" (Orderbook.mk "W4" [⟨60, 5⟩] [⟨70, 7⟩]) initialEngine).snapshots
          "W4" = appendCapped 10000 (initialEngine.snapshots "W4") snap := by
  exact ⟨_, rfl,
    (updateOrderbook_snapshot_recording initialEngine 0 "W4"
      (Orderbook.mk "W4" [⟨60, 5⟩] [⟨70, 7⟩])).2.1 _ rfl⟩

theorem appendCapped_lastN {α : Type _} (n : Nat) (hn : 1 ≤ n) (s : List α) (x : α) :
    appendCapped n (lastN n s) x = lastN n (s ++ [x]) := by
  rcases Nat.lt_or_ge s.length n with h | h
  · have h0 : s.length - n = 0 := by omega
    simp only [appendCapped, lastN, h0, List.drop_zero, List.length_append,
      List.length_singleton]
    rw [if_neg (by omega)]
    have h1 : s.length + 1 - n = 0 := by omega
    rw [h1, List.drop_zero]
  · have hdl : (s.drop (s.length - n)).length = n := by
      rw [List.length_drop]
      omega
    simp only [appendCapped, lastN, List.length_append, hdl, List.length_singleton]
    rw [if_pos (by omega)]
    have h1 : n + 1 - n = 1 := by omega
    rw [h1, List.drop_append_of_le_length (by omega : 1 ≤ (s.drop (s.length - n)).length),
      List.drop_drop]
    have h2 : s.length + 1 - n = 1 + (s.length - n) := by omega
    rw [h2, List.drop_append_of_le_length (by omega : 1 + (s.length - n) ≤ s.length)]
    have h3 : s.length - n + 1 = 1 + (s.length - n) := by omega
    rw [h3]

/-- C8: starting from the empty log, any sequence of `TradeLog.Add` calls
leaves the log holding exactly the most recent 1000 trades added — the
suffix of the add sequence, in order — and never more than 1000. -/
theorem tradeLog_keeps_last_1000 :
    ∀ seq : List Trade,
      seq.foldl tradeLogAdd [] = lastN 1000 seq
      ∧ (seq.foldl tradeLogAdd []).length ≤ 1000
      ∧ (seq.foldl tradeLogAdd []).IsSuffix seq := by
  intro seq
  have hmain : seq.foldl tradeLogAdd [] = lastN 1000 seq := by
    induction seq using List.reverseRecOn with
    | nil => rfl
    | append_singleton l a ih =>
      rw [List.foldl_append]
      simp only [List.foldl_cons, List.foldl_nil]
      rw [ih, tradeLogAdd, appendCapped_lastN 1000 (by omega)]
  refine ⟨hmain, ?_, ?_⟩
  · rw [hmain, lastN, List.length_drop]
    omega
  · rw [hmain]
    exact List.drop_suffix _ _

/-- Mirrors `config.SignalConfig` (part_012, config package): thresholds as
exact rationals. -/
structure SignalConfig where
  computationIntervalSecs : Int
  driftWindowSecs : Int
  driftThreshold : ℚ
  imbalanceThreshold : ℚ
  volumeSurgeThreshold : ℚ
  volumeWindowSecs : Int

/-- Mirrors `signals.SignalType`. -/
inductive SignalType where
  | impliedProbabilityDrift
  | orderbookImbalance
  | volumeSurge
deriving DecidableEq, Repr

/-- Mirrors `signals.SignalMetadata`. -/
structure SignalMetadata where
  previousValue : Option ℚ
  thresholdCrossed : Bool
  confidence : ℚ

/-- Mirrors `signals.ImpliedProbabilityDriftData`. -/
structure ImpliedProbabilityDriftData where
  delta : ℚ
  windowSecs : Int

/-- Mirrors `signals.OrderbookImbalanceData`. -/
structure OrderbookImbalanceData where
  bidRatio : ℚ
  spreadCents : Int

/-- Mirrors `signals.VolumeSurgeData`. -/
structure VolumeSurgeData where
  volumeMultiplier : ℚ
  windowSecs : Int

/-- Mirrors `signals.Signal`: a tagged record with at most one payload set. -/
structure Signal where
  marketTicker : String
  type : SignalType
  value : ℚ
  timestamp : Int
  metadata : SignalMetadata
  impliedProbabilityDrift : Option ImpliedProbabilityDriftData
  orderbookImbalance : Option OrderbookImbalanceData
  volumeSurge : Option VolumeSurgeData

/-- The Go helper `min` of processor.go. -/
def goMin (a b : ℚ) : ℚ := if a < b then a else b

/-- Mirrors `Processor.detectVolumeSurge` (processor.go lines 191-244). The
engine's `GetRecentTrades` calls become timestamp filters over the market's
trade log, exactly as `TradeLog.GetSince` computes them. -/
def detectVolumeSurge (cfg : SignalConfig) (now : Int) (ticker : String)
    (log : List Trade) : Option Signal :=
  let recentTrades := log.filter (fun t => decide (now - cfg.volumeWindowSecs ≤ t.timestamp))
  if recentTrades.length = 0 then none
  else
    let recentVolume : Int := (recentTrades.map (fun t => t.quantity)).sum
    let baselineTrades :=
      log.filter (fun t => decide (now - cfg.volumeWindowSecs * 5 ≤ t.timestamp))
    if baselineTrades.length < 2 then none
    else
      let baselineVolume : Int := (baselineTrades.map (fun t => t.quantity)).sum
      let baselineAvg : ℚ := (baselineVolume : ℚ) / 5
      if baselineAvg = 0 then none
      else
        let surgeRatio : ℚ := (recentVolume : ℚ) / baselineAvg
        if cfg.volumeSurgeThreshold < surgeRatio then
          some { marketTicker := ticker
                 type := SignalType.volumeSurge
                 value := surgeRatio
                 timestamp := now
                 metadata := { previousValue := some baselineAvg
                               thresholdCrossed := true
                               confidence := goMin (surgeRatio / cfg.volumeSurgeThreshold) 1 }
                 impliedProbabilityDrift := none
                 orderbookImbalance := none
                 volumeSurge := some { volumeMultiplier := surgeRatio
                                       windowSecs := cfg.volumeWindowSecs } }
        else none

/-- C7: the processor emits a volume-surge signal only when the 5x baseline
window holds at least 2 trades and the surge ratio exceeds the threshold;
with fewer than 2 baseline trades it emits nothing. -/
theorem volumeSurge_baseline_guard :
    ∀ (cfg : SignalConfig) (now : Int) (ticker : String) (log : List Trade),
      (∀ sig : Signal, detectVolumeSurge cfg now ticker log = some sig →
          2 ≤ (log.filter
              (fun t => decide (now - cfg.volumeWindowSecs * 5 ≤ t.timestamp))).length
          ∧ sig.type = SignalType.volumeSurge
          ∧ cfg.volumeSurgeThreshold < sig.value
          ∧ sig.metadata.thresholdCrossed = true)
      ∧ ((log.filter
            (fun t => decide (now - cfg.volumeWindowSecs * 5 ≤ t.timestamp))).length < 2 →
          detectVolumeSurge cfg now ticker log = none) := by
  intro cfg now ticker log
  constructor
  · intro sig hsig
    simp only [detectVolumeSurge] at hsig
    split at hsig
    · cases hsig
    · split at hsig
      · cases hsig
      · split at hsig
        · cases hsig
        · split at hsig
          · rename_i h0 hbase havg hthr
            cases hsig
            exact ⟨by omega, rfl, hthr, rfl⟩
          · cases hsig
  · intro hlt
    simp only [detectVolumeSurge, if_pos hlt]
    split <;> rfl

/-- C7 witness: one lone trade in the baseline window yields no volume-surge
signal. -/
theorem volumeSurge_baseline_guard_witness :
    detectVolumeSurge
      { computationIntervalSecs := 1, driftWindowSecs := 60, driftThreshold := 2,
        imbalanceThreshold := 3 / 10, volumeSurgeThreshold := 3, volumeWindowSecs := 30 }
      1000 "T7" [Trade.mk "T7" TradeSide.yes 50 100 999] = none := by
  exact (volumeSurge_baseline_guard
      { computationIntervalSecs := 1, driftWindowSecs := 60, driftThreshold := 2,
        imbalanceThreshold := 3 / 10, volumeSurgeThreshold := 3, volumeWindowSecs := 30 }
      1000 "T7" [Trade.mk "T7" TradeSide.yes 50 100 999]).2 (by decide)

/-- The signal that `Processor.computeSignals` (processor.go lines 79-97)
builds from the quantitative bundle: liquidity score as value, efficiency
score as confidence; the Go composite literal leaves `ThresholdCrossed` at
its zero value `false`. -/
def quantBundleSignal (ticker : String) (now : Int) (liquidityScore efficiencyScore : ℚ) :
    Signal :=
  { marketTicker := ticker
    type := SignalType.orderbookImbalance
    value := liquidityScore
    timestamp := now
    metadata := { previousValue := none
                  thresholdCrossed := false
                  confidence := efficiencyScore }
    impliedProbabilityDrift := none
    orderbookImbalance := none
    volumeSurge := none }

/-- Mirrors the filter in `alerting.Manager.Run` (part_005 lines 268-283):
`handleSignal` — the only path to a webhook delivery — runs exactly for the
signals whose metadata marks the threshold as crossed. -/
def managerHandled (sigs : List Signal) : List Signal :=
  sigs.filter (fun s => s.metadata.thresholdCrossed)

/-- C10: every quantitative-bundle signal carries threshold_crossed = false,
and the dispatcher handles only threshold-crossed signals, so a
quantitative-bundle signal is never handled (hence never delivered to a
webhook). -/
theorem quantSignal_not_dispatched :
    (∀ (t : String) (n : Int) (liq eff : ℚ),
        (quantBundleSignal t n liq eff).metadata.thresholdCrossed = false)
    ∧ (∀ (sigs : List Signal) (s : Signal),
        s ∈ managerHandled sigs → s.metadata.thresholdCrossed = true)
    ∧ (∀ (sigs : List Signal) (t : String) (n : Int) (liq eff : ℚ),
        quantBundleSignal t n liq eff ∉ managerHandled sigs) := by
  refine ⟨fun _ _ _ _ => rfl, ?_, ?_⟩
  · intro sigs s hs
    simpa using List.of_mem_filter hs
  · intro sigs t n liq eff hmem
    have h := List.of_mem_filter hmem
    simp [quantBundleSignal] at h

/-- C10 witness: a concrete quantitative-bundle signal is not among the
handled signals even when it sits on the channel. -/
theorem quantSignal_not_dispatched_witness :
    quantBundleSignal "Q" 0 (1 / 2) (3 / 4)
      ∉ managerHandled [quantBundleSignal "Q" 0 (1 / 2) (3 / 4)] := by
  exact quantSignal_not_dispatched.2.2 [quantBundleSignal "Q" 0 (1 / 2) (3 / 4)] "Q" 0
    (1 / 2) (3 / 4)

/-- Mirrors `scanner.NoArbViolation` (part_010): the wall-clock `Timestamp`
field is not modelled. -/
structure NoArbViolation where
  eventTicker : String
  markets : List String
  sumBuyPrice : ℚ
  sumSellPrice : ℚ
  netArb : ℚ
  estimatedFees : ℚ
  estimatedSlippage : ℚ
  liquidity : Int
  actionable : Bool

/-- The leg-walking loop of `NoArbEngine.checkEventGroup` (part_010 lines
84-114): accumulates sum of best asks, sum of best bids and minimum
top-of-book quantity; `none` when any member lacks a book or has an empty
side (the Go loop breaks and the caller returns nil). The engine's
`GetOrderbook` is the `getBook` parameter. -/
def collectLegs (getBook : String → Option Orderbook) :
    List String → ℚ → ℚ → Int → Option (ℚ × ℚ × Int)
  | [], sb, ss, ml => some (sb, ss, ml)
  | ticker :: rest, sb, ss, ml =>
    match getBook ticker with
    | none => none
    | some ob =>
      match ob.bids, ob.asks with
      | bb :: _, ba :: _ =>
        let sb2 := sb + (ba.price : ℚ) / 100
        let ss2 := ss + (bb.price : ℚ) / 100
        let ml1 := if bb.quantity < ml then bb.quantity else ml
        let ml2 := if ba.quantity < ml1 then ba.quantity else ml1
        collectLegs getBook rest sb2 ss2 ml2
      | _, _ => none

/-- Mirrors `NoArbEngine.checkEventGroup` (part_010 lines 79-162): buy-arb
when sumBuy < 1, else sell-arb when sumSell > 1, else nothing; fees are 5%
of the sum per leg (the sell sum when sumSell > 1), slippage 1% per leg; a
violation record is returned whenever there is gross arb, with
`actionable` = (netArb > 0.02 and minLiquidity ≥ 10). -/
def checkEventGroup (eventTicker : String) (marketTickers : List String)
    (getBook : String → Option Orderbook) : Option NoArbViolation :=
  match collectLegs getBook marketTickers 0 0 1000000 with
  | none => none
  | some (sumBuyPrice, sumSellPrice, minLiquidity) =>
    let n : ℚ := (marketTickers.length : ℚ)
    let fees : ℚ :=
      if 1 < sumSellPrice then sumSellPrice * (5 / 100) * n
      else sumBuyPrice * (5 / 100) * n
    let slip : ℚ := (1 / 100) * n
    if sumBuyPrice < 1 then
      let netAfter := (1 - sumBuyPrice) - fees - slip
      some { eventTicker := eventTicker
             markets := marketTickers
             sumBuyPrice := sumBuyPrice
             sumSellPrice := sumSellPrice
             netArb := netAfter
             estimatedFees := fees
             estimatedSlippage := slip
             liquidity := minLiquidity
             actionable := decide ((2 : ℚ) / 100 < netAfter) && decide (10 ≤ minLiquidity) }
    else if 1 < sumSellPrice then
      let netAfter := (sumSellPrice - 1) - fees - slip
      some { eventTicker := eventTicker
             markets := marketTickers
             sumBuyPrice := sumBuyPrice
             sumSellPrice := sumSellPrice
             netArb := netAfter
             estimatedFees := fees
             estimatedSlippage := slip
             liquidity := minLiquidity
             actionable := decide ((2 : ℚ) / 100 < netAfter) && decide (10 ≤ minLiquidity) }
    else none

/-- Mirrors the group filter of `NoArbEngine.CheckNoArbViolations` (part_010
lines 61-77): groups with fewer than 2 members are skipped. -/
def checkNoArbGroup (eventTicker : String) (marketTickers : List String)
    (getBook : String → Option Orderbook) : Option NoArbViolation :=
  if marketTickers.length < 2 then none
  else checkEventGroup eventTicker marketTickers getBook

/-- The engine state used by claim C3's scenario: three active markets of
one event group with best asks 30, 45, 20 cents. -/
def getBookC3 : String → Option Orderbook := fun t =>
  if t = "A3" then some (Orderbook.mk "A3" [⟨25, 50⟩] [⟨30, 50⟩])
  else if t = "B3" then some (Orderbook.mk "B3" [⟨40, 50⟩] [⟨45, 50⟩])
  else if t = "C3" then some (Orderbook.mk "C3" [⟨15, 50⟩] [⟨20, 50⟩])
  else none

/-- C3 (amended): with every leg valid, gross buy-arb (sumBuy < 1, sumSell
≤ 1) and negative net arb after the cost model, the detector still emits a
violation record for the group — it only marks it not actionable, rather
than emitting nothing as the claim states. -/
theorem noArb_negative_marked_not_actionable :
    ∀ (et : String) (mts : List String) (getBook : String → Option Orderbook)
      (sb ss : ℚ) (ml : Int),
      collectLegs getBook mts 0 0 1000000 = some (sb, ss, ml) →
      2 ≤ mts.length →
      sb < 1 → ¬ (1 < ss) →
      (1 - sb) - sb * (5 / 100) * (mts.length : ℚ) - (1 / 100) * (mts.length : ℚ) < 0 →
      ∃ v : NoArbViolation,
        checkNoArbGroup et mts getBook = some v ∧ v.netArb < 0 ∧ v.actionable = false := by
  intro et mts getBook sb ss ml hlegs hlen hsb hss hneg
  rw [checkNoArbGroup, if_neg (by omega)]
  simp only [checkEventGroup, hlegs]
  rw [if_neg hss, if_pos hsb]
  refine ⟨_, rfl, hneg, ?_⟩
  have h1 : ¬ ((2 : ℚ) / 100
      < (1 - sb) - sb * (5 / 100) * (mts.length : ℚ) - (1 / 100) * (mts.length : ℚ)) := by
    intro hc
    linarith
  dsimp only
  rw [decide_eq_false h1, Bool.false_and]

/-- C3 counterexample: for best asks {30, 45, 20} the detector returns a
violation record (netArb = -0.1225, actionable = false) for the group — the
claim says nothing is emitted. -/
theorem noArb_negative_emitted_counterexample :
    checkNoArbGroup "E3" ["A3", "B3", "C3"] getBookC3
      = some { eventTicker := "E3"
               markets := ["A3", "B3", "C3"]
               sumBuyPrice := 19 / 20
               sumSellPrice := 4 / 5
               netArb := -(49 / 400)
               estimatedFees := 57 / 400
               estimatedSlippage := 3 / 100
               liquidity := 50
               actionable := false } := by
  have hA : getBookC3 "A3" = some (Orderbook.mk "A3" [⟨25, 50⟩] [⟨30, 50⟩]) := by decide
  have hB : getBookC3 "B3" = some (Orderbook.mk "B3" [⟨40, 50⟩] [⟨45, 50⟩]) := by decide
  have hC : getBookC3 "C3" = some (Orderbook.mk "C3" [⟨15, 50⟩] [⟨20, 50⟩]) := by decide
  have hlegs : collectLegs getBookC3 ["A3", "B3", "C3"] 0 0 1000000
      = some (19 / 20, 4 / 5, 50) := by
    simp only [collectLegs, hA, hB, hC]
    norm_num
  rw [checkNoArbGroup, if_neg (by decide)]
  simp only [checkEventGroup, hlegs]
  rw [if_neg (by norm_num : ¬ (1 : ℚ) < 4 / 5), if_pos (by norm_num : (19 : ℚ) / 20 < 1)]
  have hact : ¬ ((2 : ℚ) / 100
      < (1 - 19 / 20) - 19 / 20 * (5 / 100) * ((["A3", "B3", "C3"].length : Nat) : ℚ)
        - (1 / 100) * ((["A3", "B3", "C3"].length : Nat) : ℚ)) := by
    norm_num
  rw [decide_eq_false hact, Bool.false_and]
  norm_num [NoArbViolation.mk.injEq]

/-- C3 witness: the amended statement applied to the {30, 45, 20} scenario. -/
theorem noArb_negative_marked_not_actionable_witness :
    ∃ v : NoArbViolation,
      checkNoArbGroup "E3W" ["A3", "B3", "C3"] getBookC3 = some v
      ∧ v.netArb < 0 ∧ v.actionable = false := by
  refine noArb_negative_marked_not_actionable "E3W" ["A3", "B3", "C3"] getBookC3
    (19 / 20) (4 / 5) 50 ?_ (by decide) (by norm_num) (by norm_num) (by norm_num)
  have hA : getBookC3 "A3" = some (Orderbook.mk "A3" [⟨25, 50⟩] [⟨30, 50⟩]) := by decide
  have hB : getBookC3 "B3" = some (Orderbook.mk "B3" [⟨40, 50⟩] [⟨45, 50⟩]) := by decide
  have hC : getBookC3 "C3" = some (Orderbook.mk "C3" [⟨15, 50⟩] [⟨20, 50⟩]) := by decide
  simp only [collectLegs, hA, hB, hC]
  norm_num

/-- The delay-doubling step at the bottom of `WebSocketHandler.Run`
(websocket.go lines 53-57): delay doubles, capped at 60 seconds. -/
def wsNextDelay (d : Int) : Int :=
  if 60 < d * 2 then 60 else d * 2

/-- Mirrors the reconnect loop of `WebSocketHandler.Run` (websocket.go lines
28-59), in seconds. Each list element is one `connectAndListen` attempt:
`true` when the dial succeeded (the connection later ended), `false` when it
failed. The result is the successive sleeps taken before each reconnect.
`dLocal` is `Run`'s local `delay` variable; `field` is the handler's
`reconnectDelay` struct field, which `connectAndListen` sets to 5 on a
successful connect (websocket.go line 77) but which `Run` never reads after
initialisation — carried here so the embedding mirrors the source
faithfully. -/
def wsRunDelays : Int → Int → List Bool → List Int
  | _, _, [] => []
  | dLocal, field, connected :: rest =>
    dLocal :: wsRunDelays (wsNextDelay dLocal) (if connected then 5 else field) rest

/-- C9: the sleeps of the reconnect loop, evaluated. With attempts
fail, fail, succeed-then-drop, fail, the loop sleeps 5, 10, 20, 40 seconds:
the delay keeps doubling after the successful connect instead of resetting
to the 5-second base (the reset inside `connectAndListen` writes the struct
field that `Run`'s local `delay` never re-reads), contradicting the claim,
the spec and the source's own "Reset delay on successful connection"
comment. The doubling-to-a-60-second-cap half of the claim does hold, as
the all-failure run shows. -/
theorem wsReconnect_delay_evolution :
    wsRunDelays 5 5 [false, false, true, false] = [5, 10, 20, 40]
    ∧ wsRunDelays 5 5 [false, false, false, false, false, false]
        = [5, 10, 20, 40, 60, 60] := by
  constructor <;> decide
